import Mathlib

/-!
Verification of the Informatica-workflow-to-SQL converter
(`codex_test/__init__.py`).  The definitions below are a shallow embedding
of the Python module: JSON values become the inductive `Json`, parsed
PowerCenter XML becomes `XmlElem`, Python dicts become association lists
with Python's insert-or-update-in-place semantics, and each Python helper
function is translated one-to-one.
-/

namespace CodexTest

/-- A parsed JSON value.  `obj` models a Python dict produced by
`json.loads`, so its keys are unique. -/
inductive Json where
  | null
  | bool (b : Bool)
  | num (n : Int)
  | str (s : String)
  | arr (xs : List Json)
  | obj (kvs : List (String × Json))

/-- Dict lookup (`node.get(k)` / `node[k]`). -/
def getKey (k : String) : List (String × Json) → Option Json
  | [] => none
  | (k', v) :: rest => if k' = k then some v else getKey k rest

/-- `k in node`. -/
def hasKey (k : String) (kvs : List (String × Json)) : Bool :=
  (getKey k kvs).isSome

/-- `node.get(k)` with Python `None` modelled as `Json.null`. -/
def getKeyD (k : String) (kvs : List (String × Json)) : Json :=
  (getKey k kvs).getD .null

/-- Python truthiness of a JSON value. -/
def truthy : Json → Bool
  | .null => false
  | .bool b => b
  | .num n => n != 0
  | .str s => s != ""
  | .arr xs => !xs.isEmpty
  | .obj kvs => !kvs.isEmpty

mutual
/-- Python `repr` of a JSON value (strings rendered single-quoted as in
CPython when no quote characters occur inside; the repository never calls
`str()` on a container, so only the scalar cases are exercised). -/
def pyRepr : Json → String
  | .null => "None"
  | .bool b => if b then "True" else "False"
  | .num n => toString n
  | .str s => "'" ++ s ++ "'"
  | .arr xs => "[" ++ pyReprList xs ++ "]"
  | .obj kvs => "\x7b" ++ pyReprKvs kvs ++ "\x7d"

def pyReprList : List Json → String
  | [] => ""
  | [x] => pyRepr x
  | x :: y :: xs => pyRepr x ++ ", " ++ pyReprList (y :: xs)

def pyReprKvs : List (String × Json) → String
  | [] => ""
  | [(k, v)] => "'" ++ k ++ "': " ++ pyRepr v
  | (k, v) :: p :: rest => "'" ++ k ++ "': " ++ pyRepr v ++ ", " ++ pyReprKvs (p :: rest)
end

/-- Python `str()` of a JSON value. -/
def pyStr : Json → String
  | .str s => s
  | j => pyRepr j

/-- The characters removed by Python's `str.strip()`. -/
def pyWhitespace (c : Char) : Bool :=
  c = ' ' || c = '\t' || c = '\n' || c = '\r' || c = '\x0b' || c = '\x0c'

/-- Python `str.strip()`. -/
def pyStrip (s : String) : String :=
  ⟨((s.data.dropWhile pyWhitespace).reverse.dropWhile pyWhitespace).reverse⟩

/-- Python `str.lower()` (the repository only lowercases ASCII names). -/
def pyLowerChar (c : Char) : Char :=
  if 'A' ≤ c ∧ c ≤ 'Z' then Char.ofNat (c.toNat + 32) else c

/-- Python `str.lower()`. -/
def pyLower (s : String) : String := ⟨s.data.map pyLowerChar⟩

/-- Python `str.startswith`. -/
def pyStartsWith (s p : String) : Bool := p.data.isPrefixOf s.data

/-- Helper for Python's `sub in s` on strings: does `sub` occur as a
contiguous run of `l`? -/
def containsRun (sub : List Char) : List Char → Bool
  | [] => sub.isEmpty
  | c :: rest => sub.isPrefixOf (c :: rest) || containsRun sub rest

/-- Python's substring test `sub in s`. -/
def strContains (s sub : String) : Bool := containsRun sub.data s.data

/-- `add_name` inside `_normalize_field_list.walk`: coerce a leaf to a
trimmed string and keep it only when non-blank. -/
def addName (n : Json) : List String :=
  let nm := match n with
    | .str s => pyStrip s
    | j => pyStrip (if truthy j then pyStr j else "")
  if nm = "" then [] else [nm]

/-- The `name`/`NAME` handling at the top of the dict case of `walk`:
`if any(k in node for k in ("name", "NAME")): add_name(node.get("name") or node.get("NAME"))`. -/
def namePart (kvs : List (String × Json)) : List String :=
  if hasKey "name" kvs || hasKey "NAME" kvs then
    addName (if truthy (getKeyD "name" kvs) then getKeyD "name" kvs else getKeyD "NAME" kvs)
  else []

mutual
/-- `walk` inside `_normalize_field_list`: recursively collect column
names.  A dict contributes its own `name`/`NAME`, then the values of keys
`fields`, `columns`, `ports`, `children`, `items` in that order, then
`schema.fields`. -/
def walk : Json → List String
  | .null => []
  | .bool b => addName (.bool b)
  | .num n => addName (.num n)
  | .str s => addName (.str s)
  | .arr xs => walkList xs
  | .obj kvs =>
      namePart kvs ++
      walkKey "fields" kvs ++ walkKey "columns" kvs ++ walkKey "ports" kvs ++
      walkKey "children" kvs ++ walkKey "items" kvs ++ walkSchema kvs

def walkList : List Json → List String
  | [] => []
  | x :: xs => walk x ++ walkList xs

/-- `if k in node: walk(node[k])` (dict keys are unique, see `Json.obj`). -/
def walkKey (k : String) : List (String × Json) → List String
  | [] => []
  | (k', v) :: rest => if k' = k then walk v else walkKey k rest

/-- The dict case of `isinstance(node["schema"], dict) and "fields" in
node["schema"]`: walk `fields` of a `schema` value when it is a dict. -/
def walkSchemaVal : Json → List String
  | .obj skvs => walkKey "fields" skvs
  | _ => []

/-- `if "schema" in node and isinstance(node["schema"], dict): if "fields" in node["schema"]: walk(node["schema"]["fields"])`. -/
def walkSchema : List (String × Json) → List String
  | [] => []
  | (k', v) :: rest =>
      if k' = "schema" then walkSchemaVal v else walkSchema rest
end

/-- The order-preserving case-insensitive deduplication loop used by
`_normalize_field_list`, `_coerce_endpoints` and `_union_fields`
(`seen` holds the lowercased keys already emitted). -/
def dedupCI (seen : List String) : List String → List String
  | [] => []
  | c :: rest =>
      if pyLower c ∈ seen then dedupCI seen rest
      else c :: dedupCI (pyLower c :: seen) rest

/-- `_normalize_field_list`. -/
def normalize_field_list (j : Json) : List String :=
  dedupCI [] (walk j)

/-- `_text_identifier` (argument already converted from `None` to `""`). -/
def text_identifier (name : String) : String := pyStrip name

/-- The `f_list` accumulation inside `_coerce_endpoints`:
`for k in ("fields", "columns", "ports", "schema", "items"): if k in it: f_list.extend(_normalize_field_list(it[k]))`. -/
def coerceFieldList (kvs : List (String × Json)) : List String :=
  ["fields", "columns", "ports", "schema", "items"].foldl
    (fun acc k =>
      match getKey k kvs with
      | some v => acc ++ normalize_field_list v
      | none => acc) []

/-- The Python or-chain `it.get("name") or it.get("NAME") or default`. -/
def nameOrChain (kvs : List (String × Json)) (dflt : Json) : Json :=
  if truthy (getKeyD "name" kvs) then getKeyD "name" kvs
  else if truthy (getKeyD "NAME" kvs) then getKeyD "NAME" kvs
  else dflt

/-- The per-item body of the loop in `_coerce_endpoints`. -/
def coerceOne (default_name : String) (it : Json) : String × List String :=
  match it with
  | .str s =>
      (if text_identifier s = "" then default_name else text_identifier s, [])
  | .obj kvs =>
      let nm := text_identifier (pyStr (nameOrChain kvs (.str default_name)))
      ((if nm = "" then default_name else nm), dedupCI [] (coerceFieldList kvs))
  | _ => (default_name, [])

/-- `_coerce_endpoints` (`Json.null` stands for Python `None`, covering
both an absent key and an explicit JSON null). -/
def coerce_endpoints (obj : Json) (default_name : String) : List (String × List String) :=
  match obj with
  | .null => []
  | .arr xs => xs.map (coerceOne default_name)
  | j => [coerceOne default_name j]

/-- The `items` list of `_coerce_endpoints`: empty for Python `None`,
the list itself for a list, else the singleton `[obj]`. -/
def endpointItems : Json → List Json
  | .null => []
  | .arr xs => xs
  | j => [j]

/-- The raw `f_list` that `_coerce_endpoints` accumulates for one item
before its final deduplication loop (lines 353-360): the key search of
`coerceFieldList` when the item is a dict, nothing otherwise. -/
def rawEndpointFields : Json → List String
  | .obj kvs => coerceFieldList kvs
  | _ => []

/-- `(m.get("type") or "")` in `_iter_idmc_mappings`. -/
def typeValOrEmpty (mkvs : List (String × Json)) : Json :=
  if truthy (getKeyD "type" mkvs) then getKeyD "type" mkvs else .str ""

/-- `_iter_idmc_mappings`. -/
def iter_idmc_mappings (data : Json) : List Json :=
  match data with
  | .obj kvs =>
      match getKey "mappings" kvs with
      | some (.arr ms) => ms.filter (fun m => match m with | .obj _ => true | _ => false)
      | _ =>
          match getKey "objects" kvs with
          | some (.arr ms) =>
              ms.filter (fun m =>
                match m with
                | .obj mkvs =>
                    -- `(m.get("type") or "").lower() == "mapping"`; a truthy
                    -- non-string `type` would raise AttributeError in Python
                    -- and is not modelled (no repository input produces it).
                    (match typeValOrEmpty mkvs with
                     | .str s => pyLower s = "mapping"
                     | _ => false)
                | _ => false)
          | _ => []
  | _ => []

/-- A normalized mapping plan (`_idmc_mapping_plans` result entry). -/
structure MappingPlan where
  name : String
  sources : List (String × List String)
  targets : List (String × List String)

/-- The dict entries of a mapping object (elements of
`_iter_idmc_mappings` are always dicts). -/
def objKvs : Json → List (String × Json)
  | .obj kvs => kvs
  | _ => []

/-- `m.get("sources") if "sources" in m else m.get("source")` (and the
target analogue). -/
def endpointObj (plural singular : String) (kvs : List (String × Json)) : Json :=
  if hasKey plural kvs then getKeyD plural kvs else getKeyD singular kvs

/-- The mapping-name computation in `_idmc_mapping_plans`. -/
def planName (kvs : List (String × Json)) : String :=
  let s := pyStrip (pyStr (nameOrChain kvs (.str "UNKNOWN_MAPPING")))
  if s = "" then "UNKNOWN_MAPPING" else s

/-- `_idmc_mapping_plans`. -/
def idmc_mapping_plans (data : Json) : List MappingPlan :=
  (iter_idmc_mappings data).map fun m =>
    { name := planName (objKvs m)
      sources := coerce_endpoints (endpointObj "sources" "source" (objKvs m)) "SOURCE"
      targets := coerce_endpoints (endpointObj "targets" "target" (objKvs m)) "TARGET" }

/-- `_union_fields`. -/
def union_fields (sources : List (String × List String)) : List String :=
  dedupCI [] (sources.flatMap (·.2))

/-- `_common_fields`. -/
def common_fields (sources : List (String × List String)) : List String :=
  match sources with
  | [] => []
  | (_, f0) :: rest =>
      let common := rest.foldl
        (fun acc s => acc.filter (fun cl => s.2.any (fun f => pyLower f = cl)))
        (f0.map pyLower)
      f0.filter (fun c => common.contains (pyLower c))

/-- The `wanted` list of `_build_select_from_sources`:
`[c for c in target_cols if c]` when `target_cols` is truthy, else
`_union_fields(sources)`. -/
def wantedCols (sources : List (String × List String))
    (target_cols : Option (List String)) : List String :=
  match target_cols with
  | some ts => if ts = [] then union_fields sources else ts.filter (· ≠ "")
  | none => union_fields sources

/-- `any(f.lower() == cl for f in fields)`: does a source contain the
column case-insensitively? -/
def sourceHasCol (col : String) (s : String × List String) : Bool :=
  s.2.any (fun f => pyLower f = pyLower col)

/-- The `owner` closure of `_build_select_from_sources`: the first source
in list order whose fields contain the column case-insensitively. -/
def ownerSource (sources : List (String × List String)) (col : String) : Option String :=
  (sources.find? (sourceHasCol col)).map (·.1)

/-- One entry of the `select_exprs` list in the multi-source branch of
`_build_select_from_sources`. -/
def selectItem (sources : List (String × List String)) (c : String) : String :=
  if (common_fields sources).map pyLower |>.contains (pyLower c) then c
  else
    match ownerSource sources c with
    | some src => src ++ "." ++ c
    | none => "NULL AS " ++ c

/-- The `select_exprs` list in the multi-source branch. -/
def multiSelectExprs (sources : List (String × List String))
    (target_cols : Option (List String)) : List String :=
  (wantedCols sources target_cols).map (selectItem sources)

/-- The multi-source FROM clause of `_build_select_from_sources`:
chained `JOIN ... USING (common_cols)` when common columns exist,
`CROSS JOIN` otherwise. -/
def multiFromSql (sources : List (String × List String)) : String :=
  match sources with
  | [] => ""
  | (s0, _) :: rest1 =>
      if common_fields sources ≠ [] then
        String.intercalate "\n"
          (("FROM " ++ s0) ::
            rest1.map (fun s =>
              "JOIN " ++ s.1 ++ " USING (" ++
                String.intercalate ", " (common_fields sources) ++ ")"))
      else
        String.intercalate "\n"
          (("FROM " ++ s0) :: rest1.map (fun s => "CROSS JOIN " ++ s.1))

/-- The note of the multi-source branch of `_build_select_from_sources`. -/
def multiNote (sources : List (String × List String)) : Option String :=
  if common_fields sources ≠ [] then none
  else some "No common columns across sources; used CROSS JOIN"

/-- `_build_select_from_sources`, returning `(select_list, from_sql,
note)`.  Python raises IndexError on an empty source list (its callers
never pass one); the `[]` case below is that unreachable branch. -/
def build_select_from_sources (sources : List (String × List String))
    (target_cols : Option (List String)) : String × String × Option String :=
  match sources with
  | [] => ("", "", none)
  | [(src_name, fields)] =>
      match target_cols with
      | some ts =>
          if ts = [] then
            (if fields = [] then "*" else String.intercalate ", " fields,
             "FROM " ++ src_name, none)
          else
            let src_set := fields.map pyLower
            let exprs := (ts.filter (· ≠ "")).map
              (fun c => if src_set.contains (pyLower c) then c else "NULL AS " ++ c)
            (if exprs = [] then "*" else String.intercalate ", " exprs,
             "FROM " ++ src_name, none)
      | none =>
          (if fields = [] then "*" else String.intercalate ", " fields,
           "FROM " ++ src_name, none)
  | (s0, f0) :: rest1 =>
      let select_exprs := multiSelectExprs sources target_cols
      (if select_exprs = [] then "*" else String.intercalate ", " select_exprs,
       multiFromSql ((s0, f0) :: rest1), multiNote ((s0, f0) :: rest1))

/-- The placeholder emitted by the JSON path of `convert_mappings_to_sql`
for a mapping without sources or without targets. -/
def jsonPlaceholder (m_name : String) : String :=
  "-- Mapping: " ++ m_name ++ " (unsupported or underspecified)\n" ++
  "-- Requires at least one source and one target.\n" ++
  "SELECT /* mapping " ++ m_name ++ " */ *;\n"

/-- The `head` variable of the per-target loop: the mapping comment,
plus the note comment when a note is present (`if note:`). -/
def mappingStatementHead (m_name : String) (note : Option String) (tgt_name : String) : String :=
  if note.getD "" ≠ "" then
    ("-- Mapping: " ++ m_name ++ " -> " ++ tgt_name ++ "\n") ++
      ("-- " ++ note.getD "" ++ "\n")
  else "-- Mapping: " ++ m_name ++ " -> " ++ tgt_name ++ "\n"

/-- The INSERT/SELECT text following `head` in the per-target loop. -/
def mappingStatementBody (sources : List (String × List String))
    (sel_list from_sql : String) (tgt : String × List String) : String :=
  let final_sel :=
    if tgt.2 ≠ [] then (build_select_from_sources sources (some tgt.2)).1 else sel_list
  let cols_csv :=
    if tgt.2 ≠ [] then String.intercalate ", " tgt.2
    else if sel_list ≠ "*" then String.intercalate ", " (union_fields sources) else ""
  if cols_csv ≠ "" then
    "INSERT INTO " ++ tgt.1 ++ " (" ++ cols_csv ++ ")\n" ++
      "SELECT " ++ final_sel ++ "\n" ++ from_sql ++ ";\n"
  else
    "INSERT INTO " ++ tgt.1 ++ "\n" ++
      "SELECT " ++ final_sel ++ "\n" ++ from_sql ++ ";\n"

/-- The per-target statement built by the JSON path of
`convert_mappings_to_sql` (loop body over `targets`); `sel_list`,
`from_sql` and `note` are the results of the target-independent
`_build_select_from_sources(sources, None)` call. -/
def mappingStatement (m_name : String) (sources : List (String × List String))
    (sel_list from_sql : String) (note : Option String)
    (tgt : String × List String) : String :=
  mappingStatementHead m_name note tgt.1 ++
    mappingStatementBody sources sel_list from_sql tgt

/-- The `statements` list of the JSON path (one per target). -/
def mappingStatements (m_name : String) (sources targets : List (String × List String)) :
    List String :=
  let bss := build_select_from_sources sources none
  targets.map (mappingStatement m_name sources bss.1 bss.2.1 bss.2.2)

/-- The SQL text recorded for one mapping plan by the JSON path of
`convert_mappings_to_sql`. -/
def idmcSqlForPlan (pl : MappingPlan) : String :=
  if pl.sources = [] ∨ pl.targets = [] then jsonPlaceholder pl.name
  else String.intercalate "\n" (mappingStatements pl.name pl.sources pl.targets)

/-- Assignment `d[k] = v` on a Python dict modelled as an association
list: an existing key keeps its position and gets the new value, a new
key is appended. -/
def dictInsert (d : List (String × String)) (k v : String) : List (String × String) :=
  if d.any (fun p => p.1 = k) then
    d.map (fun p => if p.1 = k then (k, v) else p)
  else d ++ [(k, v)]

/-- Python dict lookup `d[k]` (first — and only — matching key). -/
def lookupDict (d : List (String × String)) (k : String) : Option String :=
  (d.find? (fun p => p.1 == k)).map (·.2)

/-- The JSON branch of `convert_mappings_to_sql` after a successful
parse: fold every mapping plan into `sql_by_mapping`. -/
def convertJson (data : Json) : List (String × String) :=
  (idmc_mapping_plans data).foldl
    (fun d pl => dictInsert d pl.name (idmcSqlForPlan pl)) []

/-- An XML element as produced by `xml.etree.ElementTree`. -/
structure XmlElem where
  tag : String
  attrs : List (String × String)
  children : List XmlElem

/-- `elem.get(name)`. -/
def xattr (e : XmlElem) (k : String) : Option String :=
  (e.attrs.find? (fun p => p.1 == k)).map (·.2)

mutual
/-- Matching strict descendants of one element, in document order. -/
def findallInElem (tag : String) : XmlElem → List XmlElem
  | ⟨_, _, children⟩ => findallDescList tag children

/-- Worker for `findall(".//TAG")`: matching elements of a forest in
document order, descending into every element. -/
def findallDescList (tag : String) : List XmlElem → List XmlElem
  | [] => []
  | c :: cs =>
      (if c.tag = tag then [c] else []) ++ findallInElem tag c ++
        findallDescList tag cs
end

/-- `root.findall(".//TAG")`: all descendants with the tag, in document
order (the root itself is not a candidate). -/
def findallDesc (tag : String) (e : XmlElem) : List XmlElem :=
  findallInElem tag e

/-- `m.findall("TRANSFORMATION")`: direct children only. -/
def xmlTransformations (m : XmlElem) : List XmlElem :=
  m.children.filter (fun c => c.tag = "TRANSFORMATION")

/-- The `srcs` filter: TYPE case-insensitively starts with `"source"`. -/
def xmlSrcs (m : XmlElem) : List XmlElem :=
  (xmlTransformations m).filter
    (fun x => pyStartsWith (pyLower ((xattr x "TYPE").getD "")) "source")

/-- The `tgts` filter: TYPE case-insensitively starts with `"target"`. -/
def xmlTgts (m : XmlElem) : List XmlElem :=
  (xmlTransformations m).filter
    (fun x => pyStartsWith (pyLower ((xattr x "TYPE").getD "")) "target")

/-- `m.get("NAME") or "UNKNOWN_MAPPING"`. -/
def xmlMapName (m : XmlElem) : String :=
  let n := (xattr m "NAME").getD ""
  if n = "" then "UNKNOWN_MAPPING" else n

/-- `_fields_from_transformation` composed with the `if f` filters at its
call sites (lines 174-175): FIELD children, non-empty NAME, stripped. -/
def fields_from_transformation (x : XmlElem) : List String :=
  ((x.children.filter (fun c => c.tag = "FIELD")).filter
      (fun f => (xattr f "NAME").getD "" ≠ "")).map
    (fun f => pyStrip ((xattr f "NAME").getD ""))

/-- `_emit_insert_select`. -/
def emit_insert_select (m_name tgt_name src_name : String) (cols : List String) : String :=
  if cols ≠ [] then
    "-- Mapping: " ++ m_name ++ "\n" ++
    "INSERT INTO " ++ tgt_name ++ " (" ++ String.intercalate ", " cols ++ ")\n" ++
    "SELECT " ++ String.intercalate ", " cols ++ " FROM " ++ src_name ++ ";\n"
  else
    "-- Mapping: " ++ m_name ++ " (no fields found)\n" ++
    "-- Unable to infer columns; emitting broad SELECT.\n" ++
    "INSERT INTO " ++ tgt_name ++ "\n" ++
    "SELECT * FROM " ++ src_name ++ ";\n"

/-- The XML-path placeholder for a mapping without a unique
source/target pair. -/
def xmlPlaceholder (m_name : String) : String :=
  "-- Mapping: " ++ m_name ++ " (unsupported or underspecified)\n" ++
  "-- No clear single source/target; manual conversion required.\n" ++
  "SELECT /* mapping " ++ m_name ++ " */ *;\n"

/-- Lines 170-185 of `convert_mappings_to_sql`: the conversion of a
mapping once a unique source and target transformation were found. -/
def xmlConvertPair (m_name : String) (src tgt : XmlElem) : String :=
  let src_name := if text_identifier ((xattr src "NAME").getD "") = "" then "SOURCE"
                  else text_identifier ((xattr src "NAME").getD "")
  let tgt_name := if text_identifier ((xattr tgt "NAME").getD "") = "" then "TARGET"
                  else text_identifier ((xattr tgt "NAME").getD "")
  let tgt_fields := (fields_from_transformation tgt).filter (· ≠ "")
  let src_fields := (fields_from_transformation src).filter (· ≠ "")
  let cols :=
    if tgt_fields ≠ [] ∧ src_fields ≠ [] then
      tgt_fields.filter (fun c => (src_fields.map pyLower).contains (pyLower c))
    else
      if tgt_fields ≠ [] then tgt_fields else src_fields
  emit_insert_select m_name tgt_name src_name cols

/-- The per-MAPPING body of the XML path of `convert_mappings_to_sql`:
`src = srcs[0] if len(srcs) == 1 else None` (likewise for targets), else
the placeholder. -/
def xmlMappingSql (m : XmlElem) : String :=
  match xmlSrcs m, xmlTgts m with
  | [s], [t] => xmlConvertPair (xmlMapName m) s t
  | _, _ => xmlPlaceholder (xmlMapName m)

/-- The XML branch of `convert_mappings_to_sql` after a successful parse. -/
def convertXml (root : XmlElem) : List (String × String) :=
  (findallDesc "MAPPING" root).foldl
    (fun d m => dictInsert d (xmlMapName m) (xmlMappingSql m)) []

/-- A workflow document after content sniffing and parsing.  The parser
is the external document loader: `none` means the parse raised
(`json.loads` failure for JSON, `ET.ParseError` for XML). -/
inductive Doc where
  | jsonDoc (parsed : Option Json)
  | xmlDoc (parsed : Option XmlElem)

/-- `count_mappings`: a malformed JSON document is swallowed and counted
as zero, a malformed XML document propagates the parse error. -/
def count_mappings : Doc → Except String Nat
  | .jsonDoc none => .ok 0
  | .jsonDoc (some data) => .ok (iter_idmc_mappings data).length
  | .xmlDoc none => .error "ParseError"
  | .xmlDoc (some root) => .ok (findallDesc "MAPPING" root).length

/-- `convert_mappings_to_sql`: a malformed JSON document yields an empty
result dict, a malformed XML document propagates the parse error. -/
def convert_mappings_to_sql : Doc → Except String (List (String × String))
  | .jsonDoc none => .ok []
  | .jsonDoc (some data) => .ok (convertJson data)
  | .xmlDoc none => .error "ParseError"
  | .xmlDoc (some root) => .ok (convertXml root)

/-- The example document of the spec's `m_join` scenario. -/
def exDocC1 : Json := .obj [("mappings", .arr [.obj [
  ("name", .str "m_join"),
  ("sources", .arr [
     .obj [("name", .str "SRC_A"), ("fields", .arr [.str "id", .str "name"])],
     .obj [("name", .str "SRC_B"), ("fields", .arr [.str "id", .str "amount"])]]),
  ("target", .obj [("name", .str "TGT"),
                   ("fields", .arr [.str "id", .str "name", .str "amount"])])]])]

/-- The IDMC document of `tests/test_idmc.py` (`SIMPLE_IDMC`): one
mapping, one source and one target with identical field lists. -/
def exDocC6 : Json := .obj [("mappings", .arr [.obj [
  ("name", .str "m_simple"),
  ("source", .obj [("name", .str "SRC_TABLE"),
                   ("fields", .arr [.str "id", .str "name"])]),
  ("target", .obj [("name", .str "TGT_TABLE"),
                   ("fields", .arr [.str "id", .str "name"])])]])]

/-- The PowerCenter XML workflow of `tests/test_sql.py`
(`SIMPLE_MAPPING`): the same single-source/single-target mapping. -/
def exDocC6xml : XmlElem :=
  ⟨"REPOSITORY", [], [⟨"FOLDER", [], [
    ⟨"MAPPING", [("NAME", "m_simple")], [
      ⟨"TRANSFORMATION", [("NAME", "SRC_TABLE"), ("TYPE", "Source Definition")], [
        ⟨"FIELD", [("NAME", "id")], []⟩, ⟨"FIELD", [("NAME", "name")], []⟩]⟩,
      ⟨"TRANSFORMATION", [("NAME", "TGT_TABLE"), ("TYPE", "Target Definition")], [
        ⟨"FIELD", [("NAME", "id")], []⟩, ⟨"FIELD", [("NAME", "name")], []⟩]⟩]⟩]⟩]⟩

/-- An endpoint description whose fields sit under a top-level
`children` key. -/
def exEndpC7 : Json := .obj [("name", .str "S"), ("children", .arr [.str "x"])]

/-- The extraction procedure exactly as claim C7 words it for the
endpoint description itself: recursively search, in priority order, the
keys `fields`, `columns`, `ports`, `children`, `items`, and
`schema.fields`, coercing each discovered leaf to a trimmed string and
dropping falsy/blank leaves (the recursive search of a nested value is
the code's own `walk`). -/
def claimedEndpointFields (e : Json) : List String :=
  match e with
  | .obj kvs =>
      walkKey "fields" kvs ++ walkKey "columns" kvs ++ walkKey "ports" kvs ++
      walkKey "children" kvs ++ walkKey "items" kvs ++ walkSchema kvs
  | _ => []

/-- A MAPPING element with no TRANSFORMATION children at all. -/
def exMapC5 : XmlElem := ⟨"MAPPING", [("NAME", "m_empty")], []⟩

/-- A document declaring two mappings with the same name `dup`. -/
def exDocC10 : Json := .obj [("mappings", .arr [
  .obj [("name", .str "dup"),
        ("source", .obj [("name", .str "S1"), ("fields", .arr [.str "a"])]),
        ("target", .obj [("name", .str "T1"), ("fields", .arr [.str "a"])])],
  .obj [("name", .str "dup"),
        ("source", .obj [("name", .str "S2"), ("fields", .arr [.str "b"])]),
        ("target", .obj [("name", .str "T2"), ("fields", .arr [.str "b"])])]])]

end CodexTest

open CodexTest

theorem isPrefixOf_self_append (l t : List Char) : l.isPrefixOf (l ++ t) = true := by
  induction l with
  | nil => simp [List.isPrefixOf]
  | cons a as ih => simp [List.isPrefixOf, ih]

theorem containsRun_append (sub : List Char) :
    ∀ a b : List Char, containsRun sub (a ++ (sub ++ b)) = true := by
  intro a
  induction a with
  | nil =>
      intro b
      cases sub with
      | nil =>
          cases b with
          | nil => rfl
          | cons c cs => simp [containsRun, List.isPrefixOf]
      | cons sc ss =>
          simp [containsRun, isPrefixOf_self_append (sc :: ss) b]
  | cons x xs ih =>
      intro b
      simpa [containsRun] using Or.inr (ih b)

theorem strContains_of_decomp (s a sub b : String) (h : s = a ++ (sub ++ b)) :
    strContains s sub = true := by
  have hd : s.data = a.data ++ (sub.data ++ b.data) := by
    simp [h]
  simpa [strContains, hd] using containsRun_append sub.data a.data b.data

/-- C1: on the spec's `m_join` example document, `convert_mappings_to_sql`
produces for mapping `m_join` an SQL text that contains the substrings
`JOIN SRC_B USING (id)`, `SELECT id, SRC_A.name, SRC_B.amount` and
`INSERT INTO TGT (id, name, amount)`. -/
theorem claim_C1 :
    convert_mappings_to_sql (.jsonDoc (some exDocC1)) =
      .ok [("m_join",
        "-- Mapping: m_join -> TGT\nINSERT INTO TGT (id, name, amount)\n" ++
        "SELECT id, SRC_A.name, SRC_B.amount\nFROM SRC_A\nJOIN SRC_B USING (id);\n")] ∧
    strContains ((lookupDict (convertJson exDocC1) "m_join").getD "")
      "JOIN SRC_B USING (id)" = true ∧
    strContains ((lookupDict (convertJson exDocC1) "m_join").getD "")
      "SELECT id, SRC_A.name, SRC_B.amount" = true ∧
    strContains ((lookupDict (convertJson exDocC1) "m_join").getD "")
      "INSERT INTO TGT (id, name, amount)" = true := by
  refine ⟨rfl, by decide, by decide, by decide⟩

/-- C6: the claim (and `tests/test_idmc.py`) require the generated SQL of
a single-source/single-target mapping with identical field lists to
contain `SELECT id, name FROM SRC_TABLE;`.  The XML path does emit that
one-line form, but the JSON path of the code puts the FROM clause on its
own line, so at the failing input `SIMPLE_IDMC` the required substring is
absent (the repository's own test asserts it): code bug, evaluated here
at the failing input. -/
theorem claim_C6 :
    strContains ((lookupDict (convertJson exDocC6) "m_simple").getD "")
      "INSERT INTO TGT_TABLE (id, name)" = true ∧
    strContains ((lookupDict (convertJson exDocC6) "m_simple").getD "")
      "SELECT id, name FROM SRC_TABLE;" = false ∧
    strContains ((lookupDict (convertJson exDocC6) "m_simple").getD "")
      "SELECT id, name\nFROM SRC_TABLE;" = true ∧
    strContains ((lookupDict (convertXml exDocC6xml) "m_simple").getD "")
      "SELECT id, name FROM SRC_TABLE;" = true := by
  refine ⟨by decide, by decide, by decide, by decide⟩

theorem dedupCI_not_mem_seen (l : List String) :
    ∀ (seen : List String), ∀ c ∈ dedupCI seen l, pyLower c ∉ seen := by
  induction l with
  | nil => intro seen c hc; simp [dedupCI] at hc
  | cons a t ih =>
      intro seen c hc
      by_cases h : pyLower a ∈ seen
      · rw [dedupCI, if_pos h] at hc
        exact ih seen c hc
      · rw [dedupCI, if_neg h] at hc
        rcases List.mem_cons.mp hc with rfl | hc2
        · exact h
        · exact fun hs => ih (pyLower a :: seen) c hc2 (List.mem_cons_of_mem _ hs)

theorem dedupCI_nodup (l : List String) :
    ∀ seen : List String, ((dedupCI seen l).map pyLower).Nodup := by
  induction l with
  | nil => intro seen; simp [dedupCI]
  | cons a t ih =>
      intro seen
      by_cases h : pyLower a ∈ seen
      · rw [dedupCI, if_pos h]; exact ih seen
      · rw [dedupCI, if_neg h]
        refine List.nodup_cons.mpr ⟨?_, ih (pyLower a :: seen)⟩
        intro hmem
        rcases List.mem_map.mp hmem with ⟨c, hc, hlc⟩
        exact dedupCI_not_mem_seen t (pyLower a :: seen) c hc (hlc ▸ List.mem_cons_self _ _)

theorem dedupCI_sublist (l : List String) :
    ∀ seen : List String, (dedupCI seen l).Sublist l := by
  induction l with
  | nil => intro seen; simp [dedupCI]
  | cons a t ih =>
      intro seen
      by_cases h : pyLower a ∈ seen
      · rw [dedupCI, if_pos h]; exact (ih seen).cons a
      · rw [dedupCI, if_neg h]; exact (ih (pyLower a :: seen)).cons₂ a

theorem dedupCI_complete (l : List String) :
    ∀ seen : List String, ∀ c ∈ l, pyLower c ∉ seen →
      ∃ cp ∈ dedupCI seen l, pyLower cp = pyLower c := by
  induction l with
  | nil => intro seen c hc; simp at hc
  | cons a t ih =>
      intro seen c hc hns
      by_cases h : pyLower a ∈ seen
      · rw [dedupCI, if_pos h]
        rcases List.mem_cons.mp hc with rfl | hc2
        · exact absurd h hns
        · exact ih seen c hc2 hns
      · rw [dedupCI, if_neg h]
        by_cases hac : pyLower c = pyLower a
        · exact ⟨a, List.mem_cons_self _ _, hac.symm⟩
        · rcases List.mem_cons.mp hc with rfl | hc2
          · exact absurd rfl hac
          · rcases ih (pyLower a :: seen) c hc2
                (by simp [hac, hns]) with ⟨cp, hcp, hl⟩
            exact ⟨cp, List.mem_cons_of_mem _ hcp, hl⟩

theorem dedupCI_first (l : List String) :
    ∀ seen : List String, ∀ cp ∈ dedupCI seen l,
      l.find? (fun x => pyLower x == pyLower cp) = some cp := by
  induction l with
  | nil => intro seen cp hcp; simp [dedupCI] at hcp
  | cons a t ih =>
      intro seen cp hcp
      by_cases h : pyLower a ∈ seen
      · rw [dedupCI, if_pos h] at hcp
        have hne : pyLower a ≠ pyLower cp := by
          intro he
          exact dedupCI_not_mem_seen t seen cp hcp (he ▸ h)
        rw [List.find?_cons_of_neg _ (by simpa using hne)]
        exact ih seen cp hcp
      · rw [dedupCI, if_neg h] at hcp
        rcases List.mem_cons.mp hcp with rfl | hcp2
        · exact List.find?_cons_of_pos _ (by simp)
        · have hns := dedupCI_not_mem_seen t (pyLower a :: seen) cp hcp2
          have hne : pyLower a ≠ pyLower cp := by
            intro he
            exact hns (he ▸ List.mem_cons_self _ _)
          rw [List.find?_cons_of_neg _ (by simpa using hne)]
          exact ih (pyLower a :: seen) cp hcp2

/-- C8: every normalized endpoint is `coerceOne` of one of the
endpoint-description items, and for every item the resulting field list
is exactly the case-insensitive dedup of the raw extracted name list
(`f_list`): it is case-insensitively duplicate-free, a subsequence of
the raw names (insertion order and original casing preserved), covers
every raw name up to case, and each kept entry is the first occurrence
of its case-insensitive class among the raw names (first-seen casing
wins). -/
theorem claim_C8 (obj : Json) (dn : String) :
    coerce_endpoints obj dn = (endpointItems obj).map (coerceOne dn) ∧
    ∀ it : Json,
      (coerceOne dn it).2 = dedupCI [] (rawEndpointFields it) ∧
      ((coerceOne dn it).2.map pyLower).Nodup ∧
      (coerceOne dn it).2.Sublist (rawEndpointFields it) ∧
      (∀ c ∈ rawEndpointFields it, ∃ cp ∈ (coerceOne dn it).2, pyLower cp = pyLower c) ∧
      (∀ cp ∈ (coerceOne dn it).2,
        (rawEndpointFields it).find? (fun x => pyLower x == pyLower cp) = some cp) := by
  constructor
  · cases obj with
    | null => rfl
    | arr xs => rfl
    | bool b => rfl
    | num n => rfl
    | str s => rfl
    | obj kvs => rfl
  · intro it
    have heq : (coerceOne dn it).2 = dedupCI [] (rawEndpointFields it) := by
      cases it with
      | obj kvs => rfl
      | null => rfl
      | bool b => rfl
      | num n => rfl
      | str s => rfl
      | arr xs => rfl
    refine ⟨heq, ?_, ?_, ?_, ?_⟩
    · rw [heq]
      exact dedupCI_nodup (rawEndpointFields it) []
    · rw [heq]
      exact dedupCI_sublist (rawEndpointFields it) []
    · intro c hc
      rw [heq]
      exact dedupCI_complete (rawEndpointFields it) [] c hc (by simp)
    · intro cp hcp
      rw [heq] at hcp
      exact dedupCI_first (rawEndpointFields it) [] cp hcp

/-- Witness for C8 at a concrete endpoint whose raw extracted field list
is `["ID", "x", "id", "y"]` (the `fields` key then the `columns` key):
the kept list is `["ID", "x", "y"]` (first-seen casing, insertion order)
and each kept entry is the first of its case-insensitive class among the
raw names. -/
theorem claim_C8_witness :
    rawEndpointFields (.obj [("fields", .arr [.str "ID", .str "x"]),
        ("columns", .arr [.str "id", .str "y"])]) = ["ID", "x", "id", "y"] ∧
    (coerceOne "SOURCE" (.obj [("fields", .arr [.str "ID", .str "x"]),
        ("columns", .arr [.str "id", .str "y"])])).2 = ["ID", "x", "y"] ∧
    coerce_endpoints (.obj [("fields", .arr [.str "ID", .str "x"]),
        ("columns", .arr [.str "id", .str "y"])]) "SOURCE" =
      (endpointItems (.obj [("fields", .arr [.str "ID", .str "x"]),
        ("columns", .arr [.str "id", .str "y"])])).map (coerceOne "SOURCE") ∧
    ∀ cp ∈ (coerceOne "SOURCE" (.obj [("fields", .arr [.str "ID", .str "x"]),
        ("columns", .arr [.str "id", .str "y"])])).2,
      (rawEndpointFields (.obj [("fields", .arr [.str "ID", .str "x"]),
        ("columns", .arr [.str "id", .str "y"])])).find?
        (fun x => pyLower x == pyLower cp) = some cp :=
  ⟨by decide, by decide,
   (claim_C8 (.obj [("fields", .arr [.str "ID", .str "x"]),
      ("columns", .arr [.str "id", .str "y"])]) "SOURCE").1,
   (((claim_C8 (.obj [("fields", .arr [.str "ID", .str "x"]),
        ("columns", .arr [.str "id", .str "y"])]) "SOURCE").2
      (.obj [("fields", .arr [.str "ID", .str "x"]),
        ("columns", .arr [.str "id", .str "y"])])).2.2.2.2)⟩

theorem dedupCI_append (l1 : List String) :
    ∀ (l2 seen : List String), (l1.map pyLower).Nodup →
      (∀ x ∈ l1, pyLower x ∉ seen) →
      ∃ l3, dedupCI seen (l1 ++ l2) = l1 ++ l3 := by
  induction l1 with
  | nil => intro l2 seen _ _; exact ⟨dedupCI seen l2, rfl⟩
  | cons a t ih =>
      intro l2 seen hn hs
      have hn2 : pyLower a ∉ t.map pyLower ∧ (t.map pyLower).Nodup := by
        rw [List.map_cons] at hn
        exact List.nodup_cons.mp hn
      have ha : pyLower a ∉ seen := hs a (List.mem_cons_self _ _)
      have hs2 : ∀ x ∈ t, pyLower x ∉ pyLower a :: seen := by
        intro x hx
        simp only [List.mem_cons, not_or]
        exact ⟨fun he => hn2.1 (he ▸ List.mem_map_of_mem _ hx),
               hs x (List.mem_cons_of_mem _ hx)⟩
      rcases ih l2 (pyLower a :: seen) hn2.2 hs2 with ⟨l3, h3⟩
      exact ⟨l3, by rw [List.cons_append, dedupCI, if_neg ha, h3, List.cons_append]⟩

/-- C2: for a mapping with at least two sources sharing a nonempty
case-insensitive common column set, the FROM clause is `FROM <first>`
followed by one `JOIN <next> USING (<common_csv>)` line per remaining
source in source-list order, no note is produced, and (for the default
target-independent synthesis, given the invariant that normalized field
lists are case-insensitively duplicate-free) every common column appears
unqualified in the SELECT expression list. -/
theorem claim_C2 (sources : List (String × List String))
    (target_cols : Option (List String))
    (h2 : 2 ≤ sources.length) (hc : common_fields sources ≠ [])
    (hd : ((sources.headI).2.map pyLower).Nodup) :
    (build_select_from_sources sources target_cols).2.1 =
      String.intercalate "\n"
        (("FROM " ++ (sources.headI).1) ::
          sources.tail.map (fun s =>
            "JOIN " ++ s.1 ++ " USING (" ++
              String.intercalate ", " (common_fields sources) ++ ")")) ∧
    (build_select_from_sources sources target_cols).2.2 = none ∧
    ∀ c ∈ common_fields sources, c ∈ multiSelectExprs sources none := by
  obtain ⟨n0, f0, n1, f1, rest, rfl⟩ :
      ∃ n0 f0 n1 f1 rest, sources = (n0, f0) :: (n1, f1) :: rest := by
    match sources, h2 with
    | (n0, f0) :: (n1, f1) :: rest, _ => exact ⟨n0, f0, n1, f1, rest, rfl⟩
  refine ⟨?_, ?_, ?_⟩
  · simp only [build_select_from_sources, multiFromSql, List.headI, List.tail_cons]
    rw [if_pos hc]
  · simp only [build_select_from_sources, multiNote]
    rw [if_pos hc]
  · intro c hcm
    have hf0 : c ∈ f0 := by
      have : common_fields ((n0, f0) :: (n1, f1) :: rest) = f0.filter
          (fun c => ((((n1, f1) :: rest).foldl
            (fun acc s => acc.filter (fun cl => s.2.any (fun f => pyLower f = cl)))
            (f0.map pyLower))).contains (pyLower c)) := rfl
      exact (List.mem_filter.mp (this ▸ hcm)).1
    have hsel : selectItem ((n0, f0) :: (n1, f1) :: rest) c = c := by
      have hmem : pyLower c ∈ (common_fields ((n0, f0) :: (n1, f1) :: rest)).map pyLower :=
        List.mem_map_of_mem _ hcm
      have hct : ((common_fields ((n0, f0) :: (n1, f1) :: rest)).map pyLower).contains
          (pyLower c) = true := List.elem_iff.mpr hmem
      unfold selectItem
      rw [if_pos hct]
    have hun : c ∈ union_fields ((n0, f0) :: (n1, f1) :: rest) := by
      have hdd : (f0.map pyLower).Nodup := by simpa [List.headI] using hd
      rcases dedupCI_append f0 (((n1, f1) :: rest).flatMap (·.2)) [] hdd
          (by simp) with ⟨l3, h3⟩
      have : union_fields ((n0, f0) :: (n1, f1) :: rest) = f0 ++ l3 := by
        simpa [union_fields, List.flatMap_cons] using h3
      rw [this]
      exact List.mem_append_left _ hf0
    have : selectItem ((n0, f0) :: (n1, f1) :: rest) c ∈
        multiSelectExprs ((n0, f0) :: (n1, f1) :: rest) none :=
      List.mem_map_of_mem _ hun
    rwa [hsel] at this

/-- Witness for C2: two sources sharing column `id`. -/
theorem claim_C2_witness :
    (2 ≤ ([("A", ["id", "x"]), ("B", ["id", "y"])] : List (String × List String)).length) ∧
    common_fields [("A", ["id", "x"]), ("B", ["id", "y"])] ≠ [] ∧
    ((([("A", ["id", "x"]), ("B", ["id", "y"])] :
        List (String × List String)).headI).2.map pyLower).Nodup ∧
    ((build_select_from_sources [("A", ["id", "x"]), ("B", ["id", "y"])] none).2.1 =
      String.intercalate "\n"
        (("FROM " ++ (([("A", ["id", "x"]), ("B", ["id", "y"])] :
            List (String × List String)).headI).1) ::
          ([("A", ["id", "x"]), ("B", ["id", "y"])] :
            List (String × List String)).tail.map (fun s =>
            "JOIN " ++ s.1 ++ " USING (" ++
              String.intercalate ", "
                (common_fields [("A", ["id", "x"]), ("B", ["id", "y"])]) ++ ")")) ∧
     (build_select_from_sources [("A", ["id", "x"]), ("B", ["id", "y"])] none).2.2 = none ∧
     ∀ c ∈ common_fields [("A", ["id", "x"]), ("B", ["id", "y"])],
       c ∈ multiSelectExprs [("A", ["id", "x"]), ("B", ["id", "y"])] none) :=
  ⟨by decide, by decide, by decide,
   claim_C2 [("A", ["id", "x"]), ("B", ["id", "y"])] none
     (by decide) (by decide) (by decide)⟩

/-- C3: for a mapping with at least two sources sharing no column
case-insensitively, the FROM clause is `FROM <first>` followed by one
`CROSS JOIN <next>` per remaining source, the note
`No common columns across sources; used CROSS JOIN` is produced, and
every emitted per-target statement of the mapping contains that note as a
comment line. -/
theorem claim_C3 (sources targets : List (String × List String)) (m_name : String)
    (target_cols : Option (List String))
    (h2 : 2 ≤ sources.length) (hc : common_fields sources = []) :
    (build_select_from_sources sources target_cols).2.1 =
      String.intercalate "\n"
        (("FROM " ++ (sources.headI).1) ::
          sources.tail.map (fun s => "CROSS JOIN " ++ s.1)) ∧
    (build_select_from_sources sources target_cols).2.2 =
      some "No common columns across sources; used CROSS JOIN" ∧
    ∀ stmt ∈ mappingStatements m_name sources targets,
      strContains stmt "-- No common columns across sources; used CROSS JOIN\n" = true := by
  obtain ⟨n0, f0, n1, f1, rest, rfl⟩ :
      ∃ n0 f0 n1 f1 rest, sources = (n0, f0) :: (n1, f1) :: rest := by
    match sources, h2 with
    | (n0, f0) :: (n1, f1) :: rest, _ => exact ⟨n0, f0, n1, f1, rest, rfl⟩
  have hne : ¬ (common_fields ((n0, f0) :: (n1, f1) :: rest) ≠ []) := fun h => h hc
  have hnote : ∀ tc, (build_select_from_sources ((n0, f0) :: (n1, f1) :: rest) tc).2.2 =
      some "No common columns across sources; used CROSS JOIN" := by
    intro tc
    simp only [build_select_from_sources, multiNote]
    rw [if_neg hne]
  refine ⟨?_, hnote target_cols, ?_⟩
  · simp only [build_select_from_sources, multiFromSql, List.headI, List.tail_cons]
    rw [if_neg hne]
  · intro stmt hst
    rcases List.mem_map.mp hst with ⟨t, _, rfl⟩
    apply strContains_of_decomp _
      ("-- Mapping: " ++ m_name ++ " -> " ++ t.1 ++ "\n") _
      (mappingStatementBody ((n0, f0) :: (n1, f1) :: rest)
        (build_select_from_sources ((n0, f0) :: (n1, f1) :: rest) none).1
        (build_select_from_sources ((n0, f0) :: (n1, f1) :: rest) none).2.1 t)
    rw [mappingStatement, mappingStatementHead, hnote none]
    have hlit : ("-- " ++ (some "No common columns across sources; used CROSS JOIN").getD ""
        ++ "\n") = "-- No common columns across sources; used CROSS JOIN\n" := by decide
    rw [if_pos (by decide), hlit, String.append_assoc]

/-- Witness for C3: two sources with disjoint columns and one target. -/
theorem claim_C3_witness :
    (2 ≤ ([("A", ["a"]), ("B", ["b"])] : List (String × List String)).length) ∧
    common_fields [("A", ["a"]), ("B", ["b"])] = [] ∧
    ((build_select_from_sources [("A", ["a"]), ("B", ["b"])] none).2.1 =
      String.intercalate "\n"
        (("FROM " ++ (([("A", ["a"]), ("B", ["b"])] :
            List (String × List String)).headI).1) ::
          ([("A", ["a"]), ("B", ["b"])] :
            List (String × List String)).tail.map (fun s => "CROSS JOIN " ++ s.1)) ∧
     (build_select_from_sources [("A", ["a"]), ("B", ["b"])] none).2.2 =
       some "No common columns across sources; used CROSS JOIN" ∧
     ∀ stmt ∈ mappingStatements "m_cross" [("A", ["a"]), ("B", ["b"])] [("T", ["a", "b"])],
       strContains stmt "-- No common columns across sources; used CROSS JOIN\n" = true) :=
  ⟨by decide, by decide,
   claim_C3 [("A", ["a"]), ("B", ["b"])] [("T", ["a", "b"])] "m_cross" none
     (by decide) (by decide)⟩

theorem find?_of_first_index {α : Type} (p : α → Bool) :
    ∀ (l : List α) (i : Nat) (hi : i < l.length),
      p (l.get ⟨i, hi⟩) = true → (∀ x ∈ l.take i, p x = false) →
      l.find? p = some (l.get ⟨i, hi⟩) := by
  intro l
  induction l with
  | nil => intro i hi; simp at hi
  | cons a t ih =>
      intro i hi hp hpre
      cases i with
      | zero => exact List.find?_cons_of_pos _ hp
      | succ j =>
          have ha : p a = false := hpre a (by simp)
          rw [List.find?_cons_of_neg _ (by simp [ha])]
          exact ih j (by simpa using hi) hp
            (fun x hx => hpre x (by simpa using List.mem_cons_of_mem a hx))

/-- C4: in multi-source synthesis the SELECT list maps the wanted columns
(`target_columns` filtered of falsy entries when a nonempty list is
given, else the first-seen-order union of all source fields) through the
per-column rule: unqualified when in the common set, else
`<owner>.<column>` for the first source in source-list order containing
the column case-insensitively, else `NULL AS <column>`. -/
theorem claim_C4 (sources : List (String × List String))
    (target_cols : Option (List String)) (h2 : 2 ≤ sources.length) :
    ((∀ ts : List String, ts ≠ [] → wantedCols sources (some ts) = ts.filter (· ≠ "")) ∧
     wantedCols sources none = union_fields sources) ∧
    (build_select_from_sources sources target_cols).1 =
      (if multiSelectExprs sources target_cols = [] then "*"
       else String.intercalate ", " (multiSelectExprs sources target_cols)) ∧
    multiSelectExprs sources target_cols =
      (wantedCols sources target_cols).map (selectItem sources) ∧
    ∀ c : String,
      (pyLower c ∈ (common_fields sources).map pyLower → selectItem sources c = c) ∧
      (pyLower c ∉ (common_fields sources).map pyLower →
        ((∀ i : Nat, ∀ hi : i < sources.length,
            sourceHasCol c (sources.get ⟨i, hi⟩) = true →
            (∀ s ∈ sources.take i, sourceHasCol c s = false) →
            selectItem sources c = (sources.get ⟨i, hi⟩).1 ++ "." ++ c) ∧
         ((∀ s ∈ sources, sourceHasCol c s = false) →
            selectItem sources c = "NULL AS " ++ c))) := by
  refine ⟨⟨?_, rfl⟩, ?_, rfl, ?_⟩
  · intro ts hts
    simp only [wantedCols]
    rw [if_neg hts]
  · obtain ⟨n0, f0, n1, f1, rest, rfl⟩ :
        ∃ n0 f0 n1 f1 rest, sources = (n0, f0) :: (n1, f1) :: rest := by
      match sources, h2 with
      | (n0, f0) :: (n1, f1) :: rest, _ => exact ⟨n0, f0, n1, f1, rest, rfl⟩
    rfl
  · intro c
    constructor
    · intro hmem
      have hct : ((common_fields sources).map pyLower).contains (pyLower c) = true :=
        List.elem_iff.mpr hmem
      unfold selectItem
      rw [if_pos hct]
    · intro hni
      have hcf : ¬ ((common_fields sources).map pyLower).contains (pyLower c) = true :=
        fun h => hni (List.elem_iff.mp h)
      constructor
      · intro i hi hp hpre
        have hfind : sources.find? (sourceHasCol c) = some (sources.get ⟨i, hi⟩) :=
          find?_of_first_index (sourceHasCol c) sources i hi hp
            (fun x hx => hpre x hx)
        have hown : ownerSource sources c = some (sources.get ⟨i, hi⟩).1 := by
          rw [ownerSource, hfind]; rfl
        unfold selectItem
        rw [if_neg hcf, hown]
      · intro hall
        have hfind : sources.find? (sourceHasCol c) = none :=
          List.find?_eq_none.mpr (fun x hx => by simp [hall x hx])
        have hown : ownerSource sources c = none := by
          rw [ownerSource, hfind]; rfl
        unfold selectItem
        rw [if_neg hcf, hown]

/-- Witness for C4: two sources, a target column list with a blank entry
and a column `z` owned by no source. -/
theorem claim_C4_witness :
    (2 ≤ ([("A", ["id", "x"]), ("B", ["id", "y"])] : List (String × List String)).length) ∧
    ((∀ ts : List String, ts ≠ [] →
        wantedCols [("A", ["id", "x"]), ("B", ["id", "y"])] (some ts) = ts.filter (· ≠ "")) ∧
      wantedCols [("A", ["id", "x"]), ("B", ["id", "y"])] none =
        union_fields [("A", ["id", "x"]), ("B", ["id", "y"])]) ∧
    ((build_select_from_sources [("A", ["id", "x"]), ("B", ["id", "y"])]
        (some ["id", "y", "z", ""])).1 =
      (if multiSelectExprs [("A", ["id", "x"]), ("B", ["id", "y"])]
            (some ["id", "y", "z", ""]) = [] then "*"
       else String.intercalate ", "
         (multiSelectExprs [("A", ["id", "x"]), ("B", ["id", "y"])]
            (some ["id", "y", "z", ""])))) ∧
    (multiSelectExprs [("A", ["id", "x"]), ("B", ["id", "y"])] (some ["id", "y", "z", ""]) =
      (wantedCols [("A", ["id", "x"]), ("B", ["id", "y"])] (some ["id", "y", "z", ""])).map
        (selectItem [("A", ["id", "x"]), ("B", ["id", "y"])])) ∧
    (∀ c : String,
      (pyLower c ∈ (common_fields [("A", ["id", "x"]), ("B", ["id", "y"])]).map pyLower →
        selectItem [("A", ["id", "x"]), ("B", ["id", "y"])] c = c) ∧
      (pyLower c ∉ (common_fields [("A", ["id", "x"]), ("B", ["id", "y"])]).map pyLower →
        ((∀ i : Nat, ∀ hi : i < ([("A", ["id", "x"]), ("B", ["id", "y"])] :
              List (String × List String)).length,
            sourceHasCol c (([("A", ["id", "x"]), ("B", ["id", "y"])] :
              List (String × List String)).get ⟨i, hi⟩) = true →
            (∀ s ∈ ([("A", ["id", "x"]), ("B", ["id", "y"])] :
              List (String × List String)).take i, sourceHasCol c s = false) →
            selectItem [("A", ["id", "x"]), ("B", ["id", "y"])] c =
              (([("A", ["id", "x"]), ("B", ["id", "y"])] :
                List (String × List String)).get ⟨i, hi⟩).1 ++ "." ++ c) ∧
         ((∀ s ∈ ([("A", ["id", "x"]), ("B", ["id", "y"])] :
              List (String × List String)), sourceHasCol c s = false) →
            selectItem [("A", ["id", "x"]), ("B", ["id", "y"])] c = "NULL AS " ++ c)))) :=
  ⟨by decide,
   (claim_C4 [("A", ["id", "x"]), ("B", ["id", "y"])] (some ["id", "y", "z", ""])
      (by decide)).1,
   (claim_C4 [("A", ["id", "x"]), ("B", ["id", "y"])] (some ["id", "y", "z", ""])
      (by decide)).2.1,
   (claim_C4 [("A", ["id", "x"]), ("B", ["id", "y"])] (some ["id", "y", "z", ""])
      (by decide)).2.2.1,
   (claim_C4 [("A", ["id", "x"]), ("B", ["id", "y"])] (some ["id", "y", "z", ""])
      (by decide)).2.2.2⟩

/-- C5: in the XML path a mapping's source is the unique TRANSFORMATION
child whose TYPE case-insensitively starts with `source` (likewise
`target`); whenever either kind does not match exactly one element the
mapping yields exactly the `SELECT /* mapping <name> */ *;` placeholder
preceded by an "unsupported or underspecified" comment, and no error. -/
theorem claim_C5 (m : XmlElem) :
    (¬((xmlSrcs m).length = 1 ∧ (xmlTgts m).length = 1) →
       xmlMappingSql m = xmlPlaceholder (xmlMapName m)) ∧
    (∀ s t, xmlSrcs m = [s] → xmlTgts m = [t] →
       xmlMappingSql m = xmlConvertPair (xmlMapName m) s t) ∧
    xmlPlaceholder (xmlMapName m) =
      "-- Mapping: " ++ xmlMapName m ++ " (unsupported or underspecified)\n" ++
      "-- No clear single source/target; manual conversion required.\n" ++
      "SELECT /* mapping " ++ xmlMapName m ++ " */ *;\n" := by
  refine ⟨?_, ?_, rfl⟩
  · intro hn
    unfold xmlMappingSql
    rcases hs : xmlSrcs m with _ | ⟨s, _ | ⟨s2, srest⟩⟩ <;>
      rcases ht : xmlTgts m with _ | ⟨t, _ | ⟨t2, trest⟩⟩ <;>
        simp [hs, ht] at hn ⊢
  · intro s t hs ht
    unfold xmlMappingSql
    rw [hs, ht]

/-- Witness for C5: a MAPPING element without transformations falls to
the placeholder. -/
theorem claim_C5_witness :
    (¬((xmlSrcs exMapC5).length = 1 ∧ (xmlTgts exMapC5).length = 1)) ∧
    xmlMappingSql exMapC5 = xmlPlaceholder (xmlMapName exMapC5) :=
  ⟨by decide, (claim_C5 exMapC5).1 (by decide)⟩

theorem coerceFieldList_eq_flatten (kvs : List (String × Json)) :
    coerceFieldList kvs =
      (["fields", "columns", "ports", "schema", "items"].map (fun k =>
        match getKey k kvs with
        | some v => normalize_field_list v
        | none => [])).flatten := by
  have h : ∀ (keys : List String) (acc : List String),
      keys.foldl (fun acc k =>
        match getKey k kvs with
        | some v => acc ++ normalize_field_list v
        | none => acc) acc =
      acc ++ (keys.map (fun k =>
        match getKey k kvs with
        | some v => normalize_field_list v
        | none => [])).flatten := by
    intro keys
    induction keys with
    | nil => intro acc; simp
    | cons k ks ih =>
        intro acc
        cases hk : getKey k kvs with
        | none => simp only [List.foldl_cons, List.map_cons, List.flatten_cons, hk]
                  simp [ih]
        | some v => simp only [List.foldl_cons, List.map_cons, List.flatten_cons, hk]
                    simp [ih, List.append_assoc]
  simpa [coerceFieldList] using
    h ["fields", "columns", "ports", "schema", "items"] []

/-- Counterexample to C7 as stated: for the endpoint description
`{"name": "S", "children": ["x"]}` the claimed search finds `x` under
the top-level `children` key, but `_coerce_endpoints` does not recognize
`children` at the top level and extracts no field at all. -/
theorem claim_C7_counterexample :
    coerce_endpoints exEndpC7 "SOURCE" = [("S", [])] ∧
    claimedEndpointFields exEndpC7 = ["x"] ∧
    (coerce_endpoints exEndpC7 "SOURCE").map Prod.snd ≠
      [dedupCI [] (claimedEndpointFields exEndpC7)] :=
  ⟨by decide, by decide, by decide⟩

/-- C7 amended: at the top level of an endpoint description the searched
keys are `fields`, `columns`, `ports`, `schema`, `items`, in that order
(no top-level `children`, and the whole `schema` value is normalized
rather than only `schema.fields`), each present value being fed to the
recursive extractor; inside nested nodes the keys `fields`, `columns`,
`ports`, `children`, `items` and then `schema.fields` are searched after
the node's own `name`/`NAME`; string leaves are trimmed and blank leaves
dropped. -/
theorem claim_C7 (kvs : List (String × Json)) (s : String) :
    coerceFieldList kvs =
      (["fields", "columns", "ports", "schema", "items"].map (fun k =>
        match getKey k kvs with
        | some v => normalize_field_list v
        | none => [])).flatten ∧
    walk (.obj kvs) =
      namePart kvs ++ walkKey "fields" kvs ++ walkKey "columns" kvs ++
        walkKey "ports" kvs ++ walkKey "children" kvs ++ walkKey "items" kvs ++
        walkSchema kvs ∧
    walk (.str s) = (if pyStrip s = "" then [] else [pyStrip s]) ∧
    walk .null = [] := by
  refine ⟨coerceFieldList_eq_flatten kvs, rfl, ?_, rfl⟩
  simp [walk, addName]

theorem lookupDict_map_ne (d : List (String × String)) (k v q : String) (h : q ≠ k) :
    lookupDict (d.map (fun p => if p.1 = k then (k, v) else p)) q = lookupDict d q := by
  induction d with
  | nil => rfl
  | cons p t ih =>
      by_cases hp : p.1 = k
      · have h1 : (k == q) = false := beq_eq_false_iff_ne.mpr fun he => h he.symm
        have h2 : (p.1 == q) = false := beq_eq_false_iff_ne.mpr fun he => h (hp ▸ he).symm
        simp only [List.map_cons, if_pos hp, lookupDict, List.find?_cons, h1, h2]
        exact ih
      · simp only [List.map_cons, if_neg hp, lookupDict, List.find?_cons]
        cases hq : (p.1 == q) with
        | true => rfl
        | false => exact ih

theorem lookupDict_map_self (d : List (String × String)) (k v : String)
    (hany : d.any (fun p => p.1 = k) = true) :
    lookupDict (d.map (fun p => if p.1 = k then (k, v) else p)) k = some v := by
  induction d with
  | nil => simp at hany
  | cons p t ih =>
      by_cases hp : p.1 = k
      · simp only [List.map_cons, if_pos hp, lookupDict, List.find?_cons, beq_self_eq_true]
        rfl
      · have h2 : (p.1 == k) = false := beq_eq_false_iff_ne.mpr hp
        simp only [List.map_cons, if_neg hp, lookupDict, List.find?_cons, h2]
        refine ih ?_
        simpa [hp] using hany

theorem lookupDict_dictInsert (d : List (String × String)) (k v q : String) :
    lookupDict (dictInsert d k v) q = if q = k then some v else lookupDict d q := by
  unfold dictInsert
  by_cases hany : d.any (fun p => p.1 = k)
  · rw [if_pos hany]
    by_cases hq : q = k
    · subst hq
      rw [if_pos rfl]
      exact lookupDict_map_self d q v hany
    · rw [if_neg hq]
      exact lookupDict_map_ne d k v q hq
  · rw [if_neg hany]
    by_cases hq : q = k
    · subst hq
      have hfn : d.find? (fun p => p.1 == q) = none := by
        refine List.find?_eq_none.mpr ?_
        intro p hp hbe
        have hpq : p.1 = q := by simpa using hbe
        exact hany (List.any_eq_true.mpr ⟨p, hp, by simp [hpq]⟩)
      rw [if_pos rfl]
      simp [lookupDict, List.find?_append, hfn, List.find?]
    · have hkq : (k == q) = false := beq_eq_false_iff_ne.mpr fun he => hq he.symm
      rw [if_neg hq]
      simp [lookupDict, List.find?_append, List.find?, hkq]

theorem lookupDict_foldl (pairs : List (String × String)) :
    ∀ (d : List (String × String)) (q : String),
      lookupDict (pairs.foldl (fun acc p => dictInsert acc p.1 p.2) d) q =
        (match pairs.reverse.find? (fun r => r.1 == q) with
         | some r => some r.2
         | none => lookupDict d q) := by
  induction pairs with
  | nil => intro d q; simp
  | cons p ps ih =>
      intro d q
      rw [List.foldl_cons, ih, List.reverse_cons, List.find?_append]
      cases hf : ps.reverse.find? (fun r => r.1 == q) with
      | some r => simp [Option.or]
      | none =>
          simp only [Option.none_or]
          rw [lookupDict_dictInsert]
          cases hq : (p.1 == q) with
          | true =>
              have hpq : p.1 = q := beq_iff_eq.mp hq
              rw [if_pos hpq.symm]
              simp [List.find?, hq]
          | false =>
              have hpq : q ≠ p.1 := fun he => by simp [he] at hq
              rw [if_neg hpq]
              simp [List.find?, hq]

/-- C10 (implicit): `convert_mappings_to_sql` keys the JSON result by
mapping name, so the value stored under a name is the SQL of the last
mapping in document order carrying that name; with duplicate names the
result has strictly fewer entries than `count_mappings` reports. -/
theorem claim_C10 :
    (∀ (data : Json) (q : String),
       lookupDict (convertJson data) q =
         (match ((idmc_mapping_plans data).map
             (fun pl => (pl.name, idmcSqlForPlan pl))).reverse.find?
             (fun r => r.1 == q) with
          | some r => some r.2
          | none => none)) ∧
    count_mappings (.jsonDoc (some exDocC10)) = .ok 2 ∧
    convert_mappings_to_sql (.jsonDoc (some exDocC10)) =
      .ok [("dup", "-- Mapping: dup -> T2\nINSERT INTO T2 (b)\nSELECT b\nFROM S2;\n")] ∧
    (convertJson exDocC10).length < (iter_idmc_mappings exDocC10).length := by
  refine ⟨?_, rfl, rfl, by decide⟩
  intro data q
  have h1 : convertJson data =
      ((idmc_mapping_plans data).map (fun pl => (pl.name, idmcSqlForPlan pl))).foldl
        (fun acc p => dictInsert acc p.1 p.2) [] := by
    rw [List.foldl_map]
    rfl
  rw [h1, lookupDict_foldl]
  cases hf : ((idmc_mapping_plans data).map
      (fun pl => (pl.name, idmcSqlForPlan pl))).reverse.find? (fun r => r.1 == q) with
  | some r => rfl
  | none => rfl

/-- C9: a document detected as JSON whose parse fails yields
`count_mappings = 0` and an empty `convert_mappings_to_sql` result
without raising, while an XML parse failure propagates to the caller. -/
theorem claim_C9 :
    count_mappings (.jsonDoc none) = .ok 0 ∧
    convert_mappings_to_sql (.jsonDoc none) = .ok [] ∧
    count_mappings (.xmlDoc none) = .error "ParseError" ∧
    convert_mappings_to_sql (.xmlDoc none) = .error "ParseError" :=
  ⟨rfl, rfl, rfl, rfl⟩
